import Mathlib

/-!
Verification of the FinWiseAI analytics core (`finwise-frontend/lib/analysis.ts`).

The TypeScript module is a collection of pure functions over in-memory
transaction lists.  We embed it shallowly in Lean:

* JS numbers are modelled by `ℚ` (the spec treats amounts as exact signed
  reals and all internal arithmetic as full precision);
* JS objects used as string-keyed dictionaries (`Record<string, T>`) are
  modelled by insertion-ordered association lists `List (String × T)`,
  which is exactly the key-ordering semantics of JS objects with string keys;
* `Number.prototype.toFixed(f)` is modelled by exact decimal rounding
  (round to nearest, ties towards the larger value, per the ECMAScript
  definition of `toFixed`);
* the host date parser `new Date(string)` (not part of the repository)
  is an explicit parameter `parseDate : String → Option (Int × Nat)`
  returning `(getFullYear, getMonth)` on success and `none` when the
  resulting time value is NaN; all date-dependent theorems hold for an
  arbitrary parser.
-/

namespace Finwise

/-- A transaction record (`Txn` in `analysis.ts`). -/
structure Txn where
  date : Option String
  amount : ℚ
  description : Option String
  category : Option String
  type : Option String
deriving DecidableEq, Repr

/-- JS `x || 0` applied to a number: `0` is falsy, so this is the identity on
rationals (kept literal to mirror `t.amount || 0` in the source). -/
def orZero (a : ℚ) : ℚ := if a = 0 then 0 else a

theorem orZero_eq (a : ℚ) : orZero a = a := by
  unfold orZero; split <;> simp_all

/-- Exact model of `Number.prototype.toFixed f` read back as a number
(`+x.toFixed(f)` / `parseFloat(x.toFixed(f))`): round `x` to `f` decimal
places, to the nearest value, ties towards the larger candidate. -/
def toFixedQ (f : ℕ) (x : ℚ) : ℚ := ((x * 10 ^ f + 1 / 2).floor : ℚ) / 10 ^ f

/-- Left-pad a string with `'0'` up to length `l` (JS `padStart(l, "0")`). -/
def padZeros (s : String) (l : ℕ) : String :=
  ⟨List.replicate (l - s.length) '0'⟩ ++ s

/-- The decimal string produced by `Number.prototype.toFixed f` (for the
rounded value `n / 10^f`): sign, integer digits, dot, `f` fraction digits. -/
def toFixedStr (f : ℕ) (x : ℚ) : String :=
  let n : ℤ := (x * 10 ^ f + 1 / 2).floor
  let sign := if n < 0 then "-" else ""
  let m := padZeros (Nat.repr n.natAbs) (f + 1)
  if f = 0 then sign ++ Nat.repr n.natAbs
  else sign ++ ⟨m.data.take (m.length - f)⟩ ++ "." ++ ⟨m.data.drop (m.length - f)⟩

/-- JS `String.prototype.toLowerCase`, modelled characterwise (the keyword
table is ASCII, for which JS and Unicode simple lowercasing agree). -/
def toLowerStr (s : String) : String := ⟨s.data.map Char.toLower⟩

/-- `needle` is a prefix of `hay` (character lists). -/
def startsWithL : List Char → List Char → Bool
  | _, [] => true
  | [], _ :: _ => false
  | h :: hs, n :: ns => h == n && startsWithL hs ns

/-- `needle` occurs as a contiguous substring of `hay` (character lists). -/
def containsSub : List Char → List Char → Bool
  | [], n => n.isEmpty
  | h :: hs, n => startsWithL (h :: hs) n || containsSub hs n

/-- JS `d.includes(k)`: substring containment on strings. -/
def strIncludes (d k : String) : Bool := containsSub d.data k.data

/-- The ordered keyword-rule table of `categorize` (keyword set, label). -/
def rules : List (List String × String) :=
  [ (["uber", "ola", "taxi", "grab", "ride", "lyft", "transport"], "Transport"),
    (["restaurant", "dine", "cafe", "pizza", "dominos", "swiggy", "zomato", "food", "mcdonald"], "Dining"),
    (["salary", "pay", "invoice", "income", "bonus", "wage"], "Income"),
    (["rent", "house", "flat", "apartment", "lease"], "Rent"),
    (["amazon", "flipkart", "shopping", "store", "mall", "retail"], "Shopping"),
    (["electricity", "water", "gas", "utility", "bill", "internet", "phone"], "Utilities"),
    (["health", "medical", "doctor", "hospital", "pharmacy", "medicine"], "Healthcare"),
    (["gym", "fitness", "sport", "yoga", "netflix", "spotify", "subscription"], "Entertainment"),
    (["education", "course", "tuition", "school", "college", "book"], "Education"),
    (["insurance", "investment", "stock", "mutual", "fund"], "Investment") ]

/-- `categorize` from `analysis.ts`: lower-case the (optional) description and
walk the fixed `if`-chain of keyword rules; fall back to `"Other"`. -/
def categorize (description : Option String) : String :=
  let d := toLowerStr (description.getD "")
  if (["uber", "ola", "taxi", "grab", "ride", "lyft", "transport"]).any (fun k => strIncludes d k) then "Transport"
  else if (["restaurant", "dine", "cafe", "pizza", "dominos", "swiggy", "zomato", "food", "mcdonald"]).any (fun k => strIncludes d k) then "Dining"
  else if (["salary", "pay", "invoice", "income", "bonus", "wage"]).any (fun k => strIncludes d k) then "Income"
  else if (["rent", "house", "flat", "apartment", "lease"]).any (fun k => strIncludes d k) then "Rent"
  else if (["amazon", "flipkart", "shopping", "store", "mall", "retail"]).any (fun k => strIncludes d k) then "Shopping"
  else if (["electricity", "water", "gas", "utility", "bill", "internet", "phone"]).any (fun k => strIncludes d k) then "Utilities"
  else if (["health", "medical", "doctor", "hospital", "pharmacy", "medicine"]).any (fun k => strIncludes d k) then "Healthcare"
  else if (["gym", "fitness", "sport", "yoga", "netflix", "spotify", "subscription"]).any (fun k => strIncludes d k) then "Entertainment"
  else if (["education", "course", "tuition", "school", "college", "book"]).any (fun k => strIncludes d k) then "Education"
  else if (["insurance", "investment", "stock", "mutual", "fund"]).any (fun k => strIncludes d k) then "Investment"
  else "Other"

/-- The description of the categorizer in the spec: the first rule of the ordered
table whose keyword set has a substring match wins, otherwise `"Other"`. -/
def categorizeSpec (description : Option String) : String :=
  let d := toLowerStr (description.getD "")
  match rules.find? (fun r => r.1.any (fun k => strIncludes d k)) with
  | some r => r.2
  | none => "Other"

/-- JS `t.category || categorize(t.description)`: the empty string is falsy,
so an explicit empty category also falls through to the categorizer. -/
def catOf (t : Txn) : String :=
  match t.category with
  | some c => if c = "" then categorize t.description else c
  | none => categorize t.description

/-- Insert/accumulate into a string-keyed dictionary
(`obj[k] = (obj[k] ?? 0) + v`): updating keeps the position of the key,
a fresh key is appended at the end (JS object key order). -/
def upsertQ (k : String) (v : ℚ) : List (String × ℚ) → List (String × ℚ)
  | [] => [(k, v)]
  | (k', v') :: rest =>
    if k' = k then (k', v' + v) :: rest else (k', v') :: upsertQ k v rest

/-- The result record of `analyzeTransactions`. -/
structure Summary where
  totalTxns : ℕ
  netTotal : ℚ
  avgAmount : ℚ
  incomeTotal : ℚ
  expenseTotal : ℚ
  byCategory : List (String × ℚ)
deriving DecidableEq, Repr

/-- `analyzeTransactions` from `analysis.ts`. -/
def analyzeTransactions (txns : List Txn) : Summary :=
  if txns.length = 0 then
    { totalTxns := 0, netTotal := 0, avgAmount := 0,
      incomeTotal := 0, expenseTotal := 0, byCategory := [] }
  else
    let amounts := txns.map (fun t => orZero t.amount)
    let netTotal := amounts.foldl (· + ·) 0
    let avgAmount := amounts.foldl (· + ·) 0 /
      (if amounts.length = 0 then 1 else (amounts.length : ℚ))
    let incomeTotal := txns.foldl
      (fun s t => s + (if t.type = some "income" ∨ 0 < t.amount then t.amount else 0)) 0
    let expenseTotal := txns.foldl
      (fun s t => s + (if t.amount < 0 then -t.amount else 0)) 0
    let byCategory := txns.foldl (fun acc t => upsertQ (catOf t) (orZero t.amount) acc) []
    { totalTxns := txns.length, netTotal := netTotal, avgAmount := avgAmount,
      incomeTotal := incomeTotal, expenseTotal := expenseTotal, byCategory := byCategory }

/-! ### Monthly grouping

`groupByMonth` keys each transaction by `` `${d.getFullYear()}-${String(d.getMonth()+1).padStart(2,"0")}` ``
where `d = new Date(t.date)`; records whose date is absent or does not parse
(`isNaN(d.getTime())`) are skipped.  The host parser is the explicit
parameter `parseDate`, returning `(getFullYear, getMonth)`. -/

/-- The month key string built by the source for a parsed date. -/
def monthKey (ym : Int × ℕ) : String :=
  toString ym.1 ++ "-" ++ padZeros (Nat.repr (ym.2 + 1)) 2

/-- The month key of a transaction, when its date is present and parses. -/
def monthOf (parseDate : String → Option (Int × ℕ)) (t : Txn) : Option String :=
  match t.date with
  | none => none
  | some s => (parseDate s).map monthKey

/-- The per-month accumulator (`{ income, expense, net }`). -/
structure MonthAcc where
  income : ℚ
  expense : ℚ
  net : ℚ
deriving DecidableEq, Repr

/-- The loop body of `groupByMonth` on one bucket: split the amount into
income / expense by sign and always add it to `net`. -/
def addToAcc (a : ℚ) (b : MonthAcc) : MonthAcc :=
  let b1 := if 0 ≤ a then { b with income := b.income + a }
            else { b with expense := b.expense + (-a) }
  { b1 with net := b1.net + a }

/-- Insert an amount at a month key of the `byMonth` dictionary, creating a
zero bucket for a fresh key (appended, preserving JS key order). -/
def upsertMonth (k : String) (a : ℚ) : List (String × MonthAcc) → List (String × MonthAcc)
  | [] => [(k, addToAcc a ⟨0, 0, 0⟩)]
  | (k', b) :: rest =>
    if k' = k then (k', addToAcc a b) :: rest else (k', b) :: upsertMonth k a rest

/-- A sorted output entry of `groupByMonth` (`{ month, income, expense, net }`). -/
structure MonthBucket where
  month : String
  income : ℚ
  expense : ℚ
  net : ℚ
deriving DecidableEq, Repr

/-- The unsorted `byMonth` dictionary of `groupByMonth`. -/
def byMonthDict (parseDate : String → Option (Int × ℕ)) (txns : List Txn) :
    List (String × MonthAcc) :=
  txns.foldl
    (fun acc t =>
      match monthOf parseDate t with
      | none => acc
      | some k => upsertMonth k t.amount acc)
    []

/-- `groupByMonth` from `analysis.ts`: bucket by month key, then sort the
entries ascending by key (`localeCompare`, modelled by the string order; the
JS stable sort is modelled by stable insertion sort). -/
def groupByMonth (parseDate : String → Option (Int × ℕ)) (txns : List Txn) :
    List MonthBucket :=
  ((byMonthDict parseDate txns).map
      (fun p => MonthBucket.mk p.1 p.2.income p.2.expense p.2.net)).insertionSort
    (fun a b => a.month ≤ b.month)

/-- `forecastSavings` from `analysis.ts`: the aggregate net is used directly
as the monthly baseline; point `i+1` is `baseline * (i+1)` rounded to two
decimals via `toFixed(2)`. -/
def forecastSavings (txns : List Txn) (months : ℕ) :
    ℚ × List (ℕ × ℚ) :=
  let net := txns.foldl (fun s t => s + orZero t.amount) 0
  let avgMonthlyNet := net
  (avgMonthlyNet,
    (List.range months).map (fun i => (i + 1, toFixedQ 2 (avgMonthlyNet * (i + 1)))))

/-! ### Alert engine (`computeAlerts`)

Each alert string of the source is produced by a dedicated builder below, so
that theorems can speak about which kind of message was emitted.  The
apostrophe is written `\x27`. -/

/-- The empty-input message. -/
def noDataMsg : String := "📊 No transactions loaded. Upload your CSV to get started!"

/-- The overspending alert (rule 1, deficit branch). -/
def overspendMsg (d : String) : String :=
  "⚠️ Budget Alert: You\x27re overspending by " ++ d ++
    ". Consider reducing discretionary spending by 10-15%."

/-- The "excellent" savings-rate message (rounded rate above 20%). -/
def excellentMsg (r : String) : String :=
  "💰 Great job! You\x27re saving " ++ r ++
    "% of your income. Keep up the excellent financial discipline!"

/-- The "good" savings-rate message (rounded rate above 10%). -/
def goodMsg (r : String) : String :=
  "✅ Good progress! You\x27re saving " ++ r ++
    "% of your income. Try to increase it to 20%+ for better financial health."

/-- The "aim higher" savings-rate message. -/
def aimMsg (r : String) : String :=
  "📈 Your savings rate is " ++ r ++
    "%. Aim for at least 20% by cutting non-essential expenses."

/-- The month-over-month drop alert. -/
def dropMsg (pct month : String) : String :=
  "📉 Net savings dropped by " ++ pct ++ "% compared to " ++ month ++
    ". Review your discretionary spending patterns."

/-- The month-over-month positive-trend message. -/
def riseMsg (pct : String) : String :=
  "📈 Positive trend! Your savings increased by " ++ pct ++
    "% vs last month. Excellent work!"

/-- The per-category spike alert. -/
def spikeMsg (c pct : String) : String :=
  "🔔 " ++ c ++ " spending spiked by " ++ pct ++
    "% this month. Review if this was planned."

/-- The per-category cost-reduction commendation. -/
def reduceMsg (c pct : String) : String :=
  "✨ You reduced " ++ c ++ " spending by " ++ pct ++ "%. Great cost control!"

/-- The top-expense advisory. -/
def topMsg (c amt : String) : String :=
  "💡 Top expense: " ++ c ++ " (" ++ amt ++ "). Consider budget limits for this category."

/-- The fallback message when no alert fired. -/
def allClearMsg : String := "✅ All good! No alerts detected. Your finances are on track."

/-- Rule 1 of `computeAlerts`: overspending alert, else tiered savings-rate
message; the tier tests compare `parseFloat(rate.toFixed(1))`, i.e. the rate
rounded to one decimal, against 20 and 10. -/
def savingsAlerts (txns : List Txn) : List String :=
  let summary := analyzeTransactions txns
  if summary.incomeTotal < summary.expenseTotal then
    [overspendMsg (toFixedStr 2 (summary.expenseTotal - summary.incomeTotal))]
  else if 0 < summary.incomeTotal then
    let savingsRate := (summary.incomeTotal - summary.expenseTotal) / summary.incomeTotal * 100
    if 20 < toFixedQ 1 savingsRate then [excellentMsg (toFixedStr 1 savingsRate)]
    else if 10 < toFixedQ 1 savingsRate then [goodMsg (toFixedStr 1 savingsRate)]
    else [aimMsg (toFixedStr 1 savingsRate)]
  else []

/-- Rule 2 of `computeAlerts`: compare the last two monthly buckets. -/
def trendAlerts (monthly : List MonthBucket) : List String :=
  if 2 ≤ monthly.length then
    let last := monthly.getD (monthly.length - 1) ⟨"", 0, 0, 0⟩
    let prev := monthly.getD (monthly.length - 2) ⟨"", 0, 0, 0⟩
    let deltaNet := last.net - prev.net
    let dropPct := if prev.net ≠ 0 then deltaNet / |prev.net| * 100 else 0
    if 0 < prev.net ∧ last.net < prev.net * (8 / 10) then
      [dropMsg (toFixedStr 0 |dropPct|) prev.month]
    else if 0 < deltaNet then [riseMsg (toFixedStr 0 |dropPct|)]
    else []
  else []

/-- Nested dictionary insert for `byMonthCat[m][cat] += amount`. -/
def upsertCat (m c : String) (v : ℚ) :
    List (String × List (String × ℚ)) → List (String × List (String × ℚ))
  | [] => [(m, upsertQ c v [])]
  | (m', inner) :: rest =>
    if m' = m then (m', upsertQ c v inner) :: rest
    else (m', inner) :: upsertCat m c v rest

/-- The `byMonthCat` dictionary of `computeAlerts` (month → category → sum). -/
def byMonthCatDict (parseDate : String → Option (Int × ℕ)) (txns : List Txn) :
    List (String × List (String × ℚ)) :=
  txns.foldl
    (fun acc t =>
      match monthOf parseDate t with
      | none => acc
      | some m => upsertCat m (catOf t) (orZero t.amount) acc)
    []

/-- `byMonthCat[a]?.[c] ?? 0`. -/
def lookupCat (l : List (String × ℚ)) (k : String) : ℚ :=
  match l.find? (fun pr => pr.1 == k) with
  | some pr => pr.2
  | none => 0

/-- JS `new Set(xs)` iteration order: first occurrences, in order. -/
def dedupAux : List String → List String → List String
  | [], _ => []
  | x :: xs, seen => if x ∈ seen then dedupAux xs seen else x :: dedupAux xs (x :: seen)

/-- Rule 3 of `computeAlerts`: per-category spike / reduction alerts over the
last two months of the `byMonthCat` dictionary. -/
def spikeAlerts (dict : List (String × List (String × ℚ))) : List String :=
  let months := (dict.map Prod.fst).insertionSort (fun a b => a ≤ b)
  if 2 ≤ months.length then
    let a := months.getD (months.length - 2) ""
    let b := months.getD (months.length - 1) ""
    let innerA := match dict.find? (fun pr => pr.1 == a) with | some pr => pr.2 | none => []
    let innerB := match dict.find? (fun pr => pr.1 == b) with | some pr => pr.2 | none => []
    let cats := dedupAux (innerA.map Prod.fst ++ innerB.map Prod.fst) []
    cats.filterMap (fun c =>
      let va := |lookupCat innerA c|
      let vb := |lookupCat innerB c|
      if va * (13 / 10) < vb ∧ 500 < vb then
        some (spikeMsg c (toFixedStr 0 ((vb - va) / (if va = 0 then 1 else va) * 100)))
      else if 0 < va ∧ vb < va * (7 / 10) ∧ 500 < va then
        some (reduceMsg c (toFixedStr 0 ((va - vb) / va * 100)))
      else none)
  else []

/-- Rule 4 of `computeAlerts`: top-3 most negative category sums; advise on
the largest when its magnitude exceeds 1000. -/
def topExpenseAlerts (summary : Summary) : List String :=
  let categorySpending :=
    (((summary.byCategory.filter (fun pr => pr.2 < 0)).insertionSort
        (fun x y => x.2 ≤ y.2)).take 3)
  match categorySpending with
  | [] => []
  | top :: _ => if 1000 < |top.2| then [topMsg top.1 (toFixedStr 2 |top.2|)] else []

/-- `computeAlerts` from `analysis.ts`: the rules appended in source order,
with the explicit no-data and all-clear fallbacks. -/
def computeAlerts (parseDate : String → Option (Int × ℕ)) (txns : List Txn) :
    List String :=
  if txns.length = 0 then [noDataMsg]
  else
    let alerts :=
      savingsAlerts txns ++ trendAlerts (groupByMonth parseDate txns) ++
        spikeAlerts (byMonthCatDict parseDate txns) ++
        topExpenseAlerts (analyzeTransactions txns)
    if alerts.length ≠ 0 then alerts else [allClearMsg]

/-! ### Budget planner (`suggestBudget`) -/

/-- One entry of the `suggestions` array of `suggestBudget`. -/
structure BudgetSuggestion where
  category : String
  currentSpend : ℚ
  suggestedCut : ℚ
  newEstimatedSpend : ℚ
deriving DecidableEq, Repr

/-- The result record of `suggestBudget`. -/
structure BudgetPlan where
  currentSavings : ℚ
  targetSavings : ℚ
  neededToSave : ℚ
  suggestions : List BudgetSuggestion
deriving DecidableEq, Repr

/-- The greedy cut loop of `suggestBudget`: at most 10% of the spend of
each category, stopping once the remaining need reaches zero. -/
def budgetLoop : List (String × ℚ) → ℚ → List BudgetSuggestion
  | [], _ => []
  | (category, spend) :: rest, remain =>
    if remain ≤ 0 then []
    else
      let reduction := min (spend * (1 / 10)) remain
      { category := category, currentSpend := spend,
        suggestedCut := toFixedQ 2 reduction,
        newEstimatedSpend := toFixedQ 2 (spend - reduction) } ::
        budgetLoop rest (remain - reduction)

/-- `suggestBudget` from `analysis.ts`. -/
def suggestBudget (txns : List Txn) (targetSavings : ℚ) : BudgetPlan :=
  let summary := analyzeTransactions txns
  let currentSavings := max 0 (summary.incomeTotal - summary.expenseTotal)
  let needed := max 0 (targetSavings - currentSavings)
  let categorySpending :=
    ((summary.byCategory.filter (fun pr => pr.2 < 0)).insertionSort
        (fun x y => x.2 ≤ y.2)).map (fun pr => (pr.1, |pr.2|))
  { currentSavings := toFixedQ 2 currentSavings,
    targetSavings := toFixedQ 2 targetSavings,
    neededToSave := toFixedQ 2 needed,
    suggestions := budgetLoop categorySpending needed }

/-! ### Goal planner (`generateGoalPlan`) -/

/-- One entry of the `tips` array of `generateGoalPlan`. -/
structure GoalTip where
  category : String
  currentMonthly : ℚ
  suggestedMonthlyCut : ℚ
deriving DecidableEq, Repr

/-- The result record of `generateGoalPlan`. -/
structure GoalPlan where
  goalAmount : ℚ
  months : ℤ
  monthlyTarget : ℚ
  weeklyTarget : ℚ
  tips : List GoalTip
deriving DecidableEq, Repr

/-- The greedy cut loop of `generateGoalPlan` (pushes only positive cuts). -/
def goalLoop : List (String × ℚ) → ℚ → List GoalTip
  | [], _ => []
  | (category, amt) :: rest, remain =>
    if remain ≤ 0 then []
    else
      let absAmt := |amt|
      let cut := min (absAmt * (1 / 10)) remain
      if 0 < cut then
        { category := category, currentMonthly := toFixedQ 2 absAmt,
          suggestedMonthlyCut := toFixedQ 2 cut } :: goalLoop rest (remain - cut)
      else goalLoop rest remain

/-- `generateGoalPlan` from `analysis.ts`: all-zero guard for non-positive
inputs, otherwise monthly/weekly targets and greedy tips over the top five
expense categories. -/
def generateGoalPlan (txns : List Txn) (goalAmount : ℚ) (months : ℤ) : GoalPlan :=
  if months ≤ 0 ∨ goalAmount ≤ 0 then
    { goalAmount := 0, months := 0, monthlyTarget := 0, weeklyTarget := 0, tips := [] }
  else
    let summary := analyzeTransactions txns
    let monthlyTarget := goalAmount / (months : ℚ)
    let weeklyTarget := goalAmount / ((months : ℚ) * 4)
    let categorySpending :=
      ((summary.byCategory.filter (fun pr => pr.2 < 0)).insertionSort
          (fun x y => x.2 ≤ y.2)).take 5
    { goalAmount := toFixedQ 2 goalAmount, months := months,
      monthlyTarget := toFixedQ 2 monthlyTarget,
      weeklyTarget := toFixedQ 2 weeklyTarget,
      tips := goalLoop categorySpending monthlyTarget }

/-! ### Concrete inputs used by witnesses -/

/-- A concrete instance of the host date parser, accepting exactly ISO
`YYYY-MM-DD` strings; used to witness the date-dependent theorems. -/
def parseYM (s : String) : Option (Int × ℕ) :=
  match s.data with
  | [y1, y2, y3, y4, '-', m1, m2, '-', _, _] =>
    if y1.isDigit ∧ y2.isDigit ∧ y3.isDigit ∧ y4.isDigit ∧ m1.isDigit ∧ m2.isDigit then
      some (((y1.toNat - 48) * 1000 + (y2.toNat - 48) * 100 +
          (y3.toNat - 48) * 10 + (y4.toNat - 48) : ℕ),
        (m1.toNat - 48) * 10 + (m2.toNat - 48) - 1)
    else none
  | _ => none

/-- The three-transaction example data set of the specification. -/
def demoTxns : List Txn :=
  [ ⟨some "2024-01-05", -50, some "Uber ride", none, none⟩,
    ⟨some "2024-01-10", 2000, none, none, some "income"⟩,
    ⟨some "2024-02-01", -1200, some "Rent payment", none, none⟩ ]

/-- A single positive transaction of 100. -/
def oneTx100 : List Txn := [⟨none, 100, none, none, none⟩]

/-- Income 10000 against expenses 7996: the exact savings rate is 20.04%. -/
def rateTxns : List Txn :=
  [⟨none, 10000, none, none, none⟩, ⟨none, -7996, none, none, none⟩]

/-- One expense of 10.07 in an explicit category. -/
def spendTxns : List Txn := [⟨none, -10.07, none, some "Food", none⟩]

/-- A single zero-amount transaction (fires no alert rule). -/
def zeroTx : List Txn := [⟨none, 0, none, none, none⟩]

/-! ### Helper lemmas -/

theorem foldl_add (l : List ℚ) (a : ℚ) : l.foldl (· + ·) a = a + l.sum := by
  induction l generalizing a with
  | nil => simp
  | cons x xs ih => simp only [List.foldl_cons, ih, List.sum_cons]; ring

theorem foldl_add_map {β : Type} (f : β → ℚ) (l : List β) (a : ℚ) :
    l.foldl (fun s t => s + f t) a = a + (l.map f).sum := by
  induction l generalizing a with
  | nil => simp
  | cons x xs ih => simp only [List.foldl_cons, ih, List.map_cons, List.sum_cons]; ring

theorem map_orZero_amount (txns : List Txn) :
    (txns.map fun t => orZero t.amount) = txns.map Txn.amount := by
  simp [orZero_eq]

/-- The `netTotal` field is the plain sum of the amounts. -/
theorem analyze_netTotal (txns : List Txn) :
    (analyzeTransactions txns).netTotal = (txns.map Txn.amount).sum := by
  unfold analyzeTransactions
  split
  · rename_i h
    rw [List.length_eq_zero] at h
    subst h; simp
  · simp only [map_orZero_amount, foldl_add, zero_add]

/-! ### C1 -/

/-- C1: for every transaction list, `analyzeTransactions` returns a
`netTotal` equal to the sum of all `amount` fields of the input, and on the
empty list it returns a `Summary` whose count, net, average, income and
expense fields are all zero, with an empty category mapping. -/
theorem analyzeTransactions_net_and_empty (txns : List Txn) :
    (analyzeTransactions txns).netTotal = (txns.map Txn.amount).sum ∧
    analyzeTransactions [] =
      { totalTxns := 0, netTotal := 0, avgAmount := 0, incomeTotal := 0,
        expenseTotal := 0, byCategory := [] } :=
  ⟨analyze_netTotal txns, rfl⟩

/-! ### C6 -/

theorem sum_upsertQ (k : String) (v : ℚ) (l : List (String × ℚ)) :
    ((upsertQ k v l).map Prod.snd).sum = (l.map Prod.snd).sum + v := by
  induction l with
  | nil => simp [upsertQ]
  | cons p rest ih =>
    obtain ⟨k', v'⟩ := p
    unfold upsertQ
    split <;> simp [ih] <;> ring

theorem sum_byCategory_foldl (l : List Txn) (acc : List (String × ℚ)) :
    (((l.foldl (fun acc t => upsertQ (catOf t) (orZero t.amount) acc) acc).map
        Prod.snd).sum) =
      (acc.map Prod.snd).sum + (l.map Txn.amount).sum := by
  induction l generalizing acc with
  | nil => simp
  | cons t rest ih =>
    rw [List.foldl_cons, ih, sum_upsertQ, orZero_eq, List.map_cons, List.sum_cons]
    ring

/-- C6: the signed per-category values of `byCategory` sum to `netTotal`:
partitioning the transactions by category preserves the total. -/
theorem byCategory_sum_eq_netTotal (txns : List Txn) :
    ((analyzeTransactions txns).byCategory.map Prod.snd).sum =
      (analyzeTransactions txns).netTotal := by
  rw [analyze_netTotal]
  unfold analyzeTransactions
  split
  · rename_i h
    rw [List.length_eq_zero] at h
    subst h; simp
  · simpa using sum_byCategory_foldl txns []

/-! ### C9 -/

/-- C9: `generateGoalPlan` with a non-positive goal amount or horizon
returns the all-zero plan with no tips (and, being a total function, it
never fails). -/
theorem generateGoalPlan_guard (txns : List Txn) (goalAmount : ℚ) (months : ℤ)
    (h : goalAmount ≤ 0 ∨ months ≤ 0) :
    generateGoalPlan txns goalAmount months =
      { goalAmount := 0, months := 0, monthlyTarget := 0, weeklyTarget := 0,
        tips := [] } := by
  unfold generateGoalPlan
  rw [if_pos (h.symm.imp id id)]

theorem generateGoalPlan_guard_witness :
    ((0 : ℚ) ≤ 0 ∨ (5 : ℤ) ≤ 0) ∧
      generateGoalPlan demoTxns 0 5 =
        { goalAmount := 0, months := 0, monthlyTarget := 0, weeklyTarget := 0,
          tips := [] } :=
  ⟨Or.inl le_rfl, generateGoalPlan_guard demoTxns 0 5 (Or.inl le_rfl)⟩

/-! ### C4 -/

/-- C4: `forecastSavings` uses the plain aggregate net total (identical to
the `netTotal` of `analyzeTransactions`, not divided by the number of months
present) as baseline; the forecast has exactly `months` points and the
`i`-th point (1-indexed) is the baseline times `i`, rounded to two
decimals; in particular net 100 over 3 months forecasts 100, 200, 300. -/
theorem forecastSavings_points (txns : List Txn) (months : ℕ) :
    (forecastSavings txns months).1 = (analyzeTransactions txns).netTotal ∧
    (forecastSavings txns months).2.length = months ∧
    (∀ i, i < months →
      (forecastSavings txns months).2[i]? =
        some (i + 1, toFixedQ 2 ((analyzeTransactions txns).netTotal * ((i : ℚ) + 1)))) ∧
    (forecastSavings oneTx100 3).2 = [(1, 100), (2, 200), (3, 300)] := by
  have hnet : (forecastSavings txns months).1 = (analyzeTransactions txns).netTotal := by
    rw [analyze_netTotal]
    unfold forecastSavings
    simp only [foldl_add_map, zero_add, map_orZero_amount]
  refine ⟨hnet, by simp [forecastSavings], ?_, by with_unfolding_all rfl⟩
  intro i hi
  have : (forecastSavings txns months).2[i]? =
      some (i + 1, toFixedQ 2 ((forecastSavings txns months).1 * ((i : ℚ) + 1))) := by
    unfold forecastSavings
    simp [List.getElem?_map, List.getElem?_range, hi]
  rw [this, hnet]

theorem forecastSavings_points_witness :
    1 < 3 ∧
      (forecastSavings oneTx100 3).2[1]? =
        some (1 + 1, toFixedQ 2 ((analyzeTransactions oneTx100).netTotal * ((1 : ℚ) + 1))) :=
  ⟨by decide, (forecastSavings_points oneTx100 3).2.2.1 1 (by decide)⟩

/-! ### C5 -/

/-- C5: `categorize` is a total function (hence deterministic: equal inputs
give equal outputs); it agrees with the ordered-rule-table semantics — the
earliest rule with a keyword substring match in the lower-cased description
wins — and when no rule matches it returns `"Other"`. -/
theorem categorize_first_rule (d : Option String) :
    categorize d = categorizeSpec d ∧
    ((rules.all fun r =>
        r.1.all fun k => !strIncludes (toLowerStr (d.getD "")) k) →
      categorize d = "Other") := by
  have hspec : categorize d = categorizeSpec d := by
    unfold categorize categorizeSpec rules
    cases h0 : (["uber", "ola", "taxi", "grab", "ride", "lyft", "transport"]).any (fun k => strIncludes (toLowerStr (d.getD "")) k) with
    | true => simp [List.find?_cons, h0]
    | false =>
      simp only [List.find?_cons, h0, Bool.false_eq_true, if_false]
      cases h1 : (["restaurant", "dine", "cafe", "pizza", "dominos", "swiggy", "zomato", "food", "mcdonald"]).any (fun k => strIncludes (toLowerStr (d.getD "")) k) with
      | true => simp [List.find?_cons, h1]
      | false =>
        simp only [List.find?_cons, h1, Bool.false_eq_true, if_false]
        cases h2 : (["salary", "pay", "invoice", "income", "bonus", "wage"]).any (fun k => strIncludes (toLowerStr (d.getD "")) k) with
        | true => simp [List.find?_cons, h2]
        | false =>
          simp only [List.find?_cons, h2, Bool.false_eq_true, if_false]
          cases h3 : (["rent", "house", "flat", "apartment", "lease"]).any (fun k => strIncludes (toLowerStr (d.getD "")) k) with
          | true => simp [List.find?_cons, h3]
          | false =>
            simp only [List.find?_cons, h3, Bool.false_eq_true, if_false]
            cases h4 : (["amazon", "flipkart", "shopping", "store", "mall", "retail"]).any (fun k => strIncludes (toLowerStr (d.getD "")) k) with
            | true => simp [List.find?_cons, h4]
            | false =>
              simp only [List.find?_cons, h4, Bool.false_eq_true, if_false]
              cases h5 : (["electricity", "water", "gas", "utility", "bill", "internet", "phone"]).any (fun k => strIncludes (toLowerStr (d.getD "")) k) with
              | true => simp [List.find?_cons, h5]
              | false =>
                simp only [List.find?_cons, h5, Bool.false_eq_true, if_false]
                cases h6 : (["health", "medical", "doctor", "hospital", "pharmacy", "medicine"]).any (fun k => strIncludes (toLowerStr (d.getD "")) k) with
                | true => simp [List.find?_cons, h6]
                | false =>
                  simp only [List.find?_cons, h6, Bool.false_eq_true, if_false]
                  cases h7 : (["gym", "fitness", "sport", "yoga", "netflix", "spotify", "subscription"]).any (fun k => strIncludes (toLowerStr (d.getD "")) k) with
                  | true => simp [List.find?_cons, h7]
                  | false =>
                    simp only [List.find?_cons, h7, Bool.false_eq_true, if_false]
                    cases h8 : (["education", "course", "tuition", "school", "college", "book"]).any (fun k => strIncludes (toLowerStr (d.getD "")) k) with
                    | true => simp [List.find?_cons, h8]
                    | false =>
                      simp only [List.find?_cons, h8, Bool.false_eq_true, if_false]
                      cases h9 : (["insurance", "investment", "stock", "mutual", "fund"]).any (fun k => strIncludes (toLowerStr (d.getD "")) k) with
                      | true => simp [List.find?_cons, h9]
                      | false =>
                        simp only [List.find?_cons, h9, Bool.false_eq_true, if_false]
                        rfl
  refine ⟨hspec, fun hall => ?_⟩
  rw [hspec]
  unfold categorizeSpec
  have : rules.find?
      (fun r => r.1.any fun k => strIncludes (toLowerStr (d.getD "")) k) = none := by
    rw [List.find?_eq_none]
    intro r hr
    simp only [List.all_eq_true] at hall
    have := hall r hr
    simp only [List.all_eq_true, Bool.not_eq_true'] at this
    simp only [List.any_eq_true, Bool.not_eq_true]
    rintro ⟨k, hk, hinc⟩
    exact absurd hinc (by simp [this k hk])
  simp [this]

theorem categorize_first_rule_witness :
    ((rules.all fun r =>
        r.1.all fun k => !strIncludes (toLowerStr ((some "zzz").getD "")) k) = true) ∧
      categorize (some "zzz") = "Other" :=
  ⟨by decide, (categorize_first_rule (some "zzz")).2 (by decide)⟩

/-! ### C7 / C10: the monthly grouper -/

/-- The fold step of `byMonthDict`. -/
def monthStep (p : String → Option (Int × ℕ)) (acc : List (String × MonthAcc))
    (t : Txn) : List (String × MonthAcc) :=
  match monthOf p t with
  | none => acc
  | some k => upsertMonth k t.amount acc

theorem byMonthDict_eq_fold (p : String → Option (Int × ℕ)) (txns : List Txn) :
    byMonthDict p txns = txns.foldl (monthStep p) [] := rfl

theorem upsertMonth_fst (k : String) (a : ℚ) (l : List (String × MonthAcc)) :
    (upsertMonth k a l).map Prod.fst =
      if k ∈ l.map Prod.fst then l.map Prod.fst else l.map Prod.fst ++ [k] := by
  induction l with
  | nil => simp [upsertMonth]
  | cons pr rest ih =>
    obtain ⟨k', b⟩ := pr
    unfold upsertMonth
    by_cases h : k' = k
    · subst h; simp
    · rw [if_neg h]
      simp only [List.map_cons, ih]
      have hne : ¬k = k' := fun hk => h hk.symm
      by_cases hmem : k ∈ rest.map Prod.fst
      · rw [if_pos hmem, if_pos (List.mem_cons_of_mem _ hmem)]
      · rw [if_neg hmem, if_neg (by simp [hne, hmem]), List.cons_append]

theorem upsertMonth_keys_nodup (k : String) (a : ℚ) (l : List (String × MonthAcc))
    (h : (l.map Prod.fst).Nodup) : ((upsertMonth k a l).map Prod.fst).Nodup := by
  rw [upsertMonth_fst]
  split
  · exact h
  · rename_i hk
    simp [List.nodup_append, h, hk]

theorem monthStep_keys_nodup (p : String → Option (Int × ℕ)) (txns : List Txn)
    (acc : List (String × MonthAcc)) (h : (acc.map Prod.fst).Nodup) :
    ((txns.foldl (monthStep p) acc).map Prod.fst).Nodup := by
  induction txns generalizing acc with
  | nil => simpa using h
  | cons t rest ih =>
    rw [List.foldl_cons]
    apply ih
    unfold monthStep
    cases monthOf p t
    · exact h
    · exact upsertMonth_keys_nodup _ _ _ h

/-- The bucket list before sorting. -/
def bucketsOf (l : List (String × MonthAcc)) : List MonthBucket :=
  l.map (fun p => MonthBucket.mk p.1 p.2.income p.2.expense p.2.net)

theorem groupByMonth_eq_sort (p : String → Option (Int × ℕ)) (txns : List Txn) :
    groupByMonth p txns =
      (bucketsOf (byMonthDict p txns)).insertionSort (fun a b => a.month ≤ b.month) := rfl

theorem groupByMonth_perm (p : String → Option (Int × ℕ)) (txns : List Txn) :
    (groupByMonth p txns).Perm (bucketsOf (byMonthDict p txns)) := by
  rw [groupByMonth_eq_sort]
  exact List.perm_insertionSort _ _

theorem groupByMonth_months_nodup (p : String → Option (Int × ℕ)) (txns : List Txn) :
    ((groupByMonth p txns).map MonthBucket.month).Nodup := by
  have hperm : ((groupByMonth p txns).map MonthBucket.month).Perm
      ((bucketsOf (byMonthDict p txns)).map MonthBucket.month) :=
    (groupByMonth_perm p txns).map _
  rw [hperm.nodup_iff]
  have : (bucketsOf (byMonthDict p txns)).map MonthBucket.month =
      (byMonthDict p txns).map Prod.fst := by
    simp [bucketsOf, List.map_map]
  rw [this, byMonthDict_eq_fold]
  exact monthStep_keys_nodup p txns [] (by simp)

theorem groupByMonth_sorted_le (p : String → Option (Int × ℕ)) (txns : List Txn) :
    (groupByMonth p txns).Pairwise fun a b => a.month ≤ b.month := by
  rw [groupByMonth_eq_sort]
  exact @List.sorted_insertionSort MonthBucket (fun a b => a.month ≤ b.month) _
    ⟨fun a b => le_total a.month b.month⟩
    ⟨fun a b c hab hbc => le_trans hab hbc⟩ _

theorem upsertMonth_mem_fst (k k' : String) (a : ℚ) (l : List (String × MonthAcc)) :
    k' ∈ (upsertMonth k a l).map Prod.fst ↔ k' = k ∨ k' ∈ l.map Prod.fst := by
  rw [upsertMonth_fst]
  by_cases hk : k ∈ l.map Prod.fst
  · rw [if_pos hk]
    constructor
    · exact Or.inr
    · rintro (rfl | h)
      · exact hk
      · exact h
  · rw [if_neg hk]
    simp [List.mem_append, or_comm]

theorem monthStep_mem_fst (p : String → Option (Int × ℕ)) (txns : List Txn)
    (acc : List (String × MonthAcc)) (k : String) :
    k ∈ (txns.foldl (monthStep p) acc).map Prod.fst ↔
      k ∈ acc.map Prod.fst ∨ ∃ t ∈ txns, monthOf p t = some k := by
  induction txns generalizing acc with
  | nil => simp
  | cons t rest ih =>
    rw [List.foldl_cons, ih]
    unfold monthStep
    cases hm : monthOf p t with
    | none => simp [hm]
    | some k0 =>
      rw [upsertMonth_mem_fst]
      simp only [List.mem_cons, hm]
      constructor
      · rintro ((rfl | h) | ⟨t', ht', hk⟩)
        · exact Or.inr ⟨t, Or.inl rfl, hm⟩
        · exact Or.inl h
        · exact Or.inr ⟨t', Or.inr ht', hk⟩
      · rintro (h | ⟨t', ht' | ht', hk⟩)
        · exact Or.inl (Or.inr h)
        · subst ht'
          rw [hm] at hk
          exact Or.inl (Or.inl (by injection hk with h; exact h.symm))
        · exact Or.inr ⟨t', ht', hk⟩

theorem addToAcc_net (a : ℚ) (b : MonthAcc) : (addToAcc a b).net = b.net + a := by
  unfold addToAcc
  split <;> rfl

theorem upsertMonth_net_sum (k : String) (a : ℚ) (l : List (String × MonthAcc)) :
    ((upsertMonth k a l).map fun e => e.2.net).sum =
      ((l.map fun e => e.2.net).sum) + a := by
  induction l with
  | nil => simp [upsertMonth, addToAcc_net]
  | cons pr rest ih =>
    obtain ⟨k0, b⟩ := pr
    unfold upsertMonth
    split
    · simp [addToAcc_net]; ring
    · simp [ih]; ring

theorem monthStep_net_sum (p : String → Option (Int × ℕ)) (txns : List Txn)
    (acc : List (String × MonthAcc)) :
    ((txns.foldl (monthStep p) acc).map fun e => e.2.net).sum =
      ((acc.map fun e => e.2.net).sum) +
        (((txns.filter fun t => (monthOf p t).isSome).map Txn.amount).sum) := by
  induction txns generalizing acc with
  | nil => simp
  | cons t rest ih =>
    rw [List.foldl_cons, ih]
    unfold monthStep
    cases hm : monthOf p t with
    | none => simp [List.filter_cons, hm]
    | some k0 =>
      rw [upsertMonth_net_sum]
      simp [List.filter_cons, hm]
      ring

/-- C7: `groupByMonth` output is sorted strictly ascending by month key
(hence free of duplicate keys); a month key appears iff the date of some
transaction is present and parses to it, and the bucket nets sum exactly to the
amounts of the transactions with parsable dates (contributing transactions
are exactly those, each in full). -/
theorem groupByMonth_sorted_and_complete (p : String → Option (Int × ℕ))
    (txns : List Txn) :
    ((groupByMonth p txns).Pairwise fun a b => a.month < b.month) ∧
    (∀ k, (∃ b ∈ groupByMonth p txns, b.month = k) ↔
      ∃ t ∈ txns, monthOf p t = some k) ∧
    ((groupByMonth p txns).map MonthBucket.net).sum =
      ((txns.filter fun t => (monthOf p t).isSome).map Txn.amount).sum := by
  refine ⟨?_, ?_, ?_⟩
  · have hle := groupByMonth_sorted_le p txns
    have hne : (groupByMonth p txns).Pairwise fun a b => a.month ≠ b.month := by
      have := groupByMonth_months_nodup p txns
      rw [List.Nodup, List.pairwise_map] at this
      exact this
    exact (hle.and hne).imp fun h => lt_of_le_of_ne h.1 h.2
  · intro k
    have h1 : (∃ b ∈ groupByMonth p txns, b.month = k) ↔
        k ∈ (groupByMonth p txns).map MonthBucket.month := by
      simp [List.mem_map, eq_comm]
    rw [h1, ((groupByMonth_perm p txns).map MonthBucket.month).mem_iff]
    have h2 : (bucketsOf (byMonthDict p txns)).map MonthBucket.month =
        (byMonthDict p txns).map Prod.fst := by
      simp [bucketsOf, List.map_map]
    rw [h2, byMonthDict_eq_fold, monthStep_mem_fst]
    simp
  · have hperm : ((groupByMonth p txns).map MonthBucket.net).Perm
        ((bucketsOf (byMonthDict p txns)).map MonthBucket.net) :=
      (groupByMonth_perm p txns).map _
    rw [hperm.sum_eq]
    have : (bucketsOf (byMonthDict p txns)).map MonthBucket.net =
        (byMonthDict p txns).map fun e => e.2.net := by
      simp [bucketsOf, List.map_map]
    rw [this, byMonthDict_eq_fold]
    simpa using monthStep_net_sum p txns []

theorem groupByMonth_sorted_and_complete_witness :
    (∃ b ∈ groupByMonth parseYM demoTxns, b.month = "2024-01") ↔
      ∃ t ∈ demoTxns, monthOf parseYM t = some "2024-01" :=
  (groupByMonth_sorted_and_complete parseYM demoTxns).2.1 "2024-01"

/-- C10: every bucket of `groupByMonth` satisfies `net = income − expense`:
amounts are split by sign into income or (absolute value) expense, and added
in full to net. -/
theorem groupByMonth_net_balance (p : String → Option (Int × ℕ)) (txns : List Txn) :
    ∀ b ∈ groupByMonth p txns, b.net = b.income - b.expense := by
  have hacc : ∀ e ∈ byMonthDict p txns,
      (e : String × MonthAcc).2.net = e.2.income - e.2.expense := by
    rw [byMonthDict_eq_fold]
    have haddTo : ∀ (a : ℚ) (b : MonthAcc), b.net = b.income - b.expense →
        (addToAcc a b).net = (addToAcc a b).income - (addToAcc a b).expense := by
      intro a b h
      unfold addToAcc
      split <;> simp <;> linarith
    have hupsert : ∀ (k : String) (a : ℚ) (l : List (String × MonthAcc)),
        (∀ e ∈ l, (e : String × MonthAcc).2.net = e.2.income - e.2.expense) →
        ∀ e ∈ upsertMonth k a l, (e : String × MonthAcc).2.net = e.2.income - e.2.expense := by
      intro k a l
      induction l with
      | nil =>
        intro _ e he
        simp only [upsertMonth, List.mem_singleton] at he
        subst he
        exact haddTo a ⟨0, 0, 0⟩ (by simp)
      | cons pr rest ih =>
        obtain ⟨k0, b⟩ := pr
        intro hl e he
        unfold upsertMonth at he
        split at he
        · rcases List.mem_cons.1 he with rfl | hmem
          · exact haddTo a b (hl (k0, b) (List.mem_cons_self _ _))
          · exact hl e (List.mem_cons_of_mem _ hmem)
        · rcases List.mem_cons.1 he with rfl | hmem
          · exact hl (k0, b) (List.mem_cons_self _ _)
          · exact ih (fun e' he' => hl e' (List.mem_cons_of_mem _ he')) e hmem
    have : ∀ (l : List Txn) (acc : List (String × MonthAcc)),
        (∀ e ∈ acc, (e : String × MonthAcc).2.net = e.2.income - e.2.expense) →
        ∀ e ∈ l.foldl (monthStep p) acc,
          (e : String × MonthAcc).2.net = e.2.income - e.2.expense := by
      intro l
      induction l with
      | nil => intro acc h; simpa using h
      | cons t rest ih =>
        intro acc h
        rw [List.foldl_cons]
        apply ih
        unfold monthStep
        cases monthOf p t
        · exact h
        · exact hupsert _ _ _ h
    exact this txns [] (by simp)
  intro b hb
  rw [(groupByMonth_perm p txns).mem_iff, bucketsOf, List.mem_map] at hb
  obtain ⟨e, he, rfl⟩ := hb
  exact hacc e he

set_option maxRecDepth 4000 in
theorem groupByMonth_net_balance_witness :
    (MonthBucket.mk "2024-01" 2000 50 1950) ∈ groupByMonth parseYM demoTxns ∧
      (1950 : ℚ) = 2000 - 50 := by
  have hmem : (MonthBucket.mk "2024-01" 2000 50 1950) ∈ groupByMonth parseYM demoTxns := by
    with_unfolding_all decide
  exact ⟨hmem, groupByMonth_net_balance parseYM demoTxns _ hmem⟩

/-! ### C3: budget planner bounds -/

theorem ratFloor_eq_intFloor (q : ℚ) : q.floor = ⌊q⌋ := by
  rw [Rat.floor_def, Rat.floor_def']

theorem toFixedQ_le_add (x : ℚ) : toFixedQ 2 x ≤ x + 1 / 200 := by
  unfold toFixedQ
  have h : ((x * 10 ^ 2 + 1 / 2).floor : ℚ) ≤ x * 10 ^ 2 + 1 / 2 := by
    rw [ratFloor_eq_intFloor]
    exact Int.floor_le _
  norm_num at h ⊢
  linarith

theorem toFixedQ_nonneg (x : ℚ) (h : 0 ≤ x) : 0 ≤ toFixedQ 2 x := by
  unfold toFixedQ
  apply div_nonneg _ (by norm_num)
  rw [ratFloor_eq_intFloor]
  have : (0 : ℤ) ≤ ⌊x * 10 ^ 2 + 1 / 2⌋ := by
    rw [Int.le_floor]
    push_cast
    nlinarith
  exact_mod_cast this

theorem budgetLoop_cut_bound (l : List (String × ℚ)) (remain : ℚ) :
    ∀ s ∈ budgetLoop l remain,
      s.suggestedCut ≤ s.currentSpend * (1 / 10) + 1 / 200 := by
  induction l generalizing remain with
  | nil => intro s hs; simp [budgetLoop] at hs
  | cons pr rest ih =>
    obtain ⟨cat, spend⟩ := pr
    intro s hs
    unfold budgetLoop at hs
    split at hs
    · simp at hs
    · rcases List.mem_cons.1 hs with rfl | hmem
      · show toFixedQ 2 (min (spend * (1 / 10)) remain) ≤ spend * (1 / 10) + 1 / 200
        calc toFixedQ 2 (min (spend * (1 / 10)) remain)
            ≤ min (spend * (1 / 10)) remain + 1 / 200 := toFixedQ_le_add _
          _ ≤ spend * (1 / 10) + 1 / 200 := by
              have := min_le_left (spend * (1 / 10)) remain
              linarith
      · exact ih _ s hmem

/-- C3 (amended): every suggested cut is at most 10% of the suggestion's
current spend plus the half-cent slack introduced by the final two-decimal
rounding (`suggestedCut ≤ currentSpend / 10 + 1/200`; the unrounded
reduction itself never exceeds 10%), and `neededToSave` is non-negative. -/
theorem suggestBudget_cut_bounds (txns : List Txn) (targetSavings : ℚ) :
    0 ≤ (suggestBudget txns targetSavings).neededToSave ∧
    ∀ s ∈ (suggestBudget txns targetSavings).suggestions,
      s.suggestedCut ≤ s.currentSpend * (1 / 10) + 1 / 200 := by
  constructor
  · exact toFixedQ_nonneg _ (le_max_left _ _)
  · intro s hs
    exact budgetLoop_cut_bound _ _ s hs

/-- The suggestion the planner produces for `spendTxns` with target 100. -/
def cexSuggestion : BudgetSuggestion :=
  { category := "Food", currentSpend := 10.07, suggestedCut := 1.01,
    newEstimatedSpend := 9.06 }

set_option maxRecDepth 10000 in
/-- C3 as stated is false on the code: with a single expense of 10.07 and a
large target, the rounded `suggestedCut` 1.01 strictly exceeds 10% of the
reported `currentSpend` 10.07 (which is 1.007). -/
theorem suggestBudget_cut_cex :
    (suggestBudget spendTxns 100).suggestions = [cexSuggestion] ∧
    ¬(cexSuggestion.suggestedCut ≤ cexSuggestion.currentSpend * (1 / 10)) := by
  constructor
  · with_unfolding_all rfl
  · with_unfolding_all decide

set_option maxRecDepth 10000 in
theorem suggestBudget_cut_bounds_witness :
    cexSuggestion ∈ (suggestBudget spendTxns 100).suggestions ∧
    cexSuggestion.suggestedCut ≤ cexSuggestion.currentSpend * (1 / 10) + 1 / 200 := by
  have hmem : cexSuggestion ∈ (suggestBudget spendTxns 100).suggestions := by
    with_unfolding_all decide
  exact ⟨hmem, (suggestBudget_cut_bounds spendTxns 100).2 _ hmem⟩

/-! ### C2 / C8: classifying the alert strings

The three savings-rate tier messages are recognised by their leading
characters, which differ from those of every other alert the engine can
emit; this lets the theorems count tier messages inside an alert list whose
other entries contain arbitrary interpolated category names. -/

/-- The character at index `i` of a string. -/
def charAt (s : String) (i : ℕ) : Option Char := s.data[i]?

/-- The "excellent" tier message is the only alert starting with `'💰'`. -/
def isExcellentMsg (s : String) : Bool := decide (charAt s 0 = some '💰')

/-- The "good" tier message starts with `'✅'` and has `'G'` at index 2. -/
def isGoodMsg (s : String) : Bool :=
  decide (charAt s 0 = some '✅' ∧ charAt s 2 = some 'G')

/-- The "aim higher" tier message starts with `'📈'` and has `'Y'` at index 2. -/
def isAimMsg (s : String) : Bool :=
  decide (charAt s 0 = some '📈' ∧ charAt s 2 = some 'Y')

/-- A savings-rate tier message (exactly one of the three tiers). -/
def isSavingsMsg (s : String) : Bool := isExcellentMsg s || isGoodMsg s || isAimMsg s

theorem charAt_append_of_some {a : String} (b : String) {i : ℕ} {c : Char}
    (h : charAt a i = some c) : charAt (a ++ b) i = some c := by
  unfold charAt at h ⊢
  rw [String.data_append, List.getElem?_append, if_pos (List.getElem?_eq_some.1 h).1]
  exact h

theorem overspendMsg_charAt0 (d : String) : charAt (overspendMsg d) 0 = some '⚠' := by
  unfold overspendMsg
  repeat apply charAt_append_of_some
  decide

theorem excellentMsg_charAt0 (r : String) : charAt (excellentMsg r) 0 = some '💰' := by
  unfold excellentMsg
  repeat apply charAt_append_of_some
  decide

theorem goodMsg_charAt0 (r : String) : charAt (goodMsg r) 0 = some '✅' := by
  unfold goodMsg
  repeat apply charAt_append_of_some
  decide

theorem goodMsg_charAt2 (r : String) : charAt (goodMsg r) 2 = some 'G' := by
  unfold goodMsg
  repeat apply charAt_append_of_some
  decide

theorem aimMsg_charAt0 (r : String) : charAt (aimMsg r) 0 = some '📈' := by
  unfold aimMsg
  repeat apply charAt_append_of_some
  decide

theorem aimMsg_charAt2 (r : String) : charAt (aimMsg r) 2 = some 'Y' := by
  unfold aimMsg
  repeat apply charAt_append_of_some
  decide

theorem dropMsg_charAt0 (pct month : String) : charAt (dropMsg pct month) 0 = some '📉' := by
  unfold dropMsg
  repeat apply charAt_append_of_some
  decide

theorem riseMsg_charAt0 (pct : String) : charAt (riseMsg pct) 0 = some '📈' := by
  unfold riseMsg
  repeat apply charAt_append_of_some
  decide

theorem riseMsg_charAt2 (pct : String) : charAt (riseMsg pct) 2 = some 'P' := by
  unfold riseMsg
  repeat apply charAt_append_of_some
  decide

theorem spikeMsg_charAt0 (c pct : String) : charAt (spikeMsg c pct) 0 = some '🔔' := by
  unfold spikeMsg
  repeat apply charAt_append_of_some
  decide

theorem reduceMsg_charAt0 (c pct : String) : charAt (reduceMsg c pct) 0 = some '✨' := by
  unfold reduceMsg
  repeat apply charAt_append_of_some
  decide

theorem topMsg_charAt0 (c amt : String) : charAt (topMsg c amt) 0 = some '💡' := by
  unfold topMsg
  repeat apply charAt_append_of_some
  decide

theorem isSavingsMsg_excellent (r : String) : isSavingsMsg (excellentMsg r) = true := by
  simp [isSavingsMsg, isExcellentMsg, excellentMsg_charAt0]

theorem isSavingsMsg_good (r : String) : isSavingsMsg (goodMsg r) = true := by
  simp [isSavingsMsg, isGoodMsg, goodMsg_charAt0, goodMsg_charAt2]

theorem isSavingsMsg_aim (r : String) : isSavingsMsg (aimMsg r) = true := by
  simp [isSavingsMsg, isAimMsg, aimMsg_charAt0, aimMsg_charAt2]

theorem isSavingsMsg_overspend (d : String) : isSavingsMsg (overspendMsg d) = false := by
  simp [isSavingsMsg, isExcellentMsg, isGoodMsg, isAimMsg, overspendMsg_charAt0]

theorem isSavingsMsg_drop (pct month : String) : isSavingsMsg (dropMsg pct month) = false := by
  simp [isSavingsMsg, isExcellentMsg, isGoodMsg, isAimMsg, dropMsg_charAt0]

theorem isSavingsMsg_rise (pct : String) : isSavingsMsg (riseMsg pct) = false := by
  simp [isSavingsMsg, isExcellentMsg, isGoodMsg, isAimMsg, riseMsg_charAt0, riseMsg_charAt2]

theorem isSavingsMsg_spike (c pct : String) : isSavingsMsg (spikeMsg c pct) = false := by
  simp [isSavingsMsg, isExcellentMsg, isGoodMsg, isAimMsg, spikeMsg_charAt0]

theorem isSavingsMsg_reduce (c pct : String) : isSavingsMsg (reduceMsg c pct) = false := by
  simp [isSavingsMsg, isExcellentMsg, isGoodMsg, isAimMsg, reduceMsg_charAt0]

theorem isSavingsMsg_top (c amt : String) : isSavingsMsg (topMsg c amt) = false := by
  simp [isSavingsMsg, isExcellentMsg, isGoodMsg, isAimMsg, topMsg_charAt0]

theorem isSavingsMsg_allClear : isSavingsMsg allClearMsg = false := by decide

/-- The savings-tier message the code builds for an exact rate `r`: the tier
tests compare the rate rounded to one decimal against 20 and 10, the
displayed rate is the `toFixed(1)` rendering. -/
def tierMsgOf (r : ℚ) : String :=
  if 20 < toFixedQ 1 r then excellentMsg (toFixedStr 1 r)
  else if 10 < toFixedQ 1 r then goodMsg (toFixedStr 1 r)
  else aimMsg (toFixedStr 1 r)

theorem isSavingsMsg_tierMsgOf (r : ℚ) : isSavingsMsg (tierMsgOf r) = true := by
  unfold tierMsgOf
  split_ifs <;>
    simp [isSavingsMsg_excellent, isSavingsMsg_good, isSavingsMsg_aim]

theorem savingsAlerts_overspend (txns : List Txn)
    (hlt : (analyzeTransactions txns).incomeTotal < (analyzeTransactions txns).expenseTotal) :
    savingsAlerts txns =
      [overspendMsg (toFixedStr 2
        ((analyzeTransactions txns).expenseTotal - (analyzeTransactions txns).incomeTotal))] := by
  unfold savingsAlerts
  rw [if_pos hlt]

theorem savingsAlerts_tier (txns : List Txn)
    (hle : (analyzeTransactions txns).expenseTotal ≤ (analyzeTransactions txns).incomeTotal)
    (hpos : 0 < (analyzeTransactions txns).incomeTotal) :
    savingsAlerts txns =
      [tierMsgOf (((analyzeTransactions txns).incomeTotal -
        (analyzeTransactions txns).expenseTotal) /
          (analyzeTransactions txns).incomeTotal * 100)] := by
  unfold savingsAlerts tierMsgOf
  rw [if_neg (not_lt.2 hle), if_pos hpos]
  dsimp only
  split_ifs <;> rfl

theorem countP_savings_trend (monthly : List MonthBucket) :
    (trendAlerts monthly).countP (fun s => isSavingsMsg s) = 0 := by
  unfold trendAlerts
  split
  · dsimp only
    split
    · simp [isSavingsMsg_drop]
    · split
      · simp [isSavingsMsg_rise]
      · rfl
  · rfl

theorem countP_savings_spike (dict : List (String × List (String × ℚ))) :
    (spikeAlerts dict).countP (fun s => isSavingsMsg s) = 0 := by
  unfold spikeAlerts
  dsimp only
  split
  · rw [List.countP_eq_zero]
    intro a ha
    rw [List.mem_filterMap] at ha
    obtain ⟨c, _, hc⟩ := ha
    split at hc
    · rw [Option.some_inj] at hc
      subst hc
      simp [isSavingsMsg_spike]
    · split at hc
      · rw [Option.some_inj] at hc
        subst hc
        simp [isSavingsMsg_reduce]
      · cases hc
  · rfl

theorem countP_savings_top (summary : Summary) :
    (topExpenseAlerts summary).countP (fun s => isSavingsMsg s) = 0 := by
  unfold topExpenseAlerts
  dsimp only
  split
  · rfl
  · split
    · simp [isSavingsMsg_top]
    · rfl

theorem analyze_nil_of_eq : analyzeTransactions [] =
    { totalTxns := 0, netTotal := 0, avgAmount := 0, incomeTotal := 0,
      expenseTotal := 0, byCategory := [] } := rfl

/-- The body of `computeAlerts` before the fallbacks. -/
def alertsBody (parseDate : String → Option (Int × ℕ)) (txns : List Txn) : List String :=
  savingsAlerts txns ++ trendAlerts (groupByMonth parseDate txns) ++
    spikeAlerts (byMonthCatDict parseDate txns) ++
    topExpenseAlerts (analyzeTransactions txns)

theorem computeAlerts_eq_body (p : String → Option (Int × ℕ)) (txns : List Txn)
    (h : txns ≠ []) (h2 : savingsAlerts txns ≠ []) :
    computeAlerts p txns = alertsBody p txns := by
  unfold computeAlerts alertsBody
  rw [if_neg (by simpa using h), if_pos]
  intro hlen
  apply h2
  rcases List.length_eq_zero.1 hlen |> List.append_eq_nil.1 with ⟨h3, -⟩
  rcases List.append_eq_nil.1 h3 with ⟨h4, -⟩
  exact (List.append_eq_nil.1 h4).1

theorem countP_alertsBody_savings (p : String → Option (Int × ℕ)) (txns : List Txn) :
    (alertsBody p txns).countP (fun s => isSavingsMsg s) =
      (savingsAlerts txns).countP (fun s => isSavingsMsg s) := by
  unfold alertsBody
  rw [List.countP_append, List.countP_append, List.countP_append,
    countP_savings_trend, countP_savings_spike, countP_savings_top]
  ring

theorem txns_ne_nil_of_pos (txns : List Txn)
    (h : 0 < (analyzeTransactions txns).incomeTotal ∨
      (analyzeTransactions txns).incomeTotal < (analyzeTransactions txns).expenseTotal) :
    txns ≠ [] := by
  intro hnil
  subst hnil
  rw [analyze_nil_of_eq] at h
  rcases h with h | h <;> exact absurd h (by norm_num)

/-- C2 (amended): rule 1 of `computeAlerts`.  When expenses exceed income the
first alert is the overspending message citing the deficit; otherwise, when
income is positive, the alert list contains exactly one savings-rate tier
message, it comes first, and its tier is decided by the savings rate rounded
to one decimal (`toFixed(1)`), not the exact rate: "excellent" when the
rounded rate exceeds 20, "good" when it exceeds 10, else "aim higher". -/
theorem computeAlerts_rule1 (p : String → Option (Int × ℕ)) (txns : List Txn) :
    ((analyzeTransactions txns).incomeTotal < (analyzeTransactions txns).expenseTotal →
      (computeAlerts p txns).head? = some (overspendMsg (toFixedStr 2
        ((analyzeTransactions txns).expenseTotal - (analyzeTransactions txns).incomeTotal)))) ∧
    ((analyzeTransactions txns).expenseTotal ≤ (analyzeTransactions txns).incomeTotal →
      0 < (analyzeTransactions txns).incomeTotal →
      (computeAlerts p txns).countP (fun s => isSavingsMsg s) = 1 ∧
      (computeAlerts p txns).head? = some (tierMsgOf
        (((analyzeTransactions txns).incomeTotal - (analyzeTransactions txns).expenseTotal) /
          (analyzeTransactions txns).incomeTotal * 100))) := by
  constructor
  · intro hlt
    have hne := txns_ne_nil_of_pos txns (Or.inr hlt)
    have hsav := savingsAlerts_overspend txns hlt
    rw [computeAlerts_eq_body p txns hne (by rw [hsav]; simp)]
    unfold alertsBody
    rw [hsav]
    simp
  · intro hle hpos
    have hne := txns_ne_nil_of_pos txns (Or.inl hpos)
    have hsav := savingsAlerts_tier txns hle hpos
    rw [computeAlerts_eq_body p txns hne (by rw [hsav]; simp)]
    constructor
    · rw [countP_alertsBody_savings, hsav]
      simp [isSavingsMsg_tierMsgOf]
    · unfold alertsBody
      rw [hsav]
      simp

theorem computeAlerts_rule1_witness :
    (analyzeTransactions oneTx100).expenseTotal ≤ (analyzeTransactions oneTx100).incomeTotal ∧
    0 < (analyzeTransactions oneTx100).incomeTotal ∧
    (computeAlerts parseYM oneTx100).countP (fun s => isSavingsMsg s) = 1 ∧
    (computeAlerts parseYM oneTx100).head? = some (tierMsgOf
      (((analyzeTransactions oneTx100).incomeTotal - (analyzeTransactions oneTx100).expenseTotal) /
        (analyzeTransactions oneTx100).incomeTotal * 100)) := by
  have h1 : (analyzeTransactions oneTx100).expenseTotal ≤
      (analyzeTransactions oneTx100).incomeTotal := by with_unfolding_all decide
  have h2 : 0 < (analyzeTransactions oneTx100).incomeTotal := by with_unfolding_all decide
  obtain ⟨hc, hh⟩ := (computeAlerts_rule1 parseYM oneTx100).2 h1 h2
  exact ⟨h1, h2, hc, hh⟩

set_option maxRecDepth 10000 in
/-- C2 as stated is false on the code: on `rateTxns` the exact savings rate
is 20.04% — strictly greater than 20 — yet the code emits the "good" tier
message built from the rounded rate 20.0 and no "excellent" message at all,
because the tier comparison uses `parseFloat(rate.toFixed(1))`. -/
theorem computeAlerts_exact_rate_cex :
    (20 : ℚ) < ((analyzeTransactions rateTxns).incomeTotal -
        (analyzeTransactions rateTxns).expenseTotal) /
      (analyzeTransactions rateTxns).incomeTotal * 100 ∧
    (computeAlerts parseYM rateTxns).countP (fun s => isExcellentMsg s) = 0 ∧
    (computeAlerts parseYM rateTxns).head? = some (goodMsg "20.0") := by
  refine ⟨by with_unfolding_all decide, ?_, ?_⟩
  · with_unfolding_all decide
  · with_unfolding_all rfl

/-! ### C8 -/

/-- C8: `computeAlerts` always returns a non-empty list: the empty input gets
the explicit "no data" message, and a non-empty input on which no rule fires
gets the single "all clear" message. -/
theorem computeAlerts_never_empty (p : String → Option (Int × ℕ)) (txns : List Txn) :
    computeAlerts p txns ≠ [] ∧
    computeAlerts p [] = [noDataMsg] ∧
    (txns ≠ [] → alertsBody p txns = [] → computeAlerts p txns = [allClearMsg]) := by
  refine ⟨?_, rfl, ?_⟩
  · unfold computeAlerts
    split
    · simp
    · dsimp only
      split
      · rename_i halerts
        intro hnil
        exact halerts (by rw [hnil]; rfl)
      · simp
  · intro hne hbody
    unfold computeAlerts
    rw [if_neg (by simpa using hne)]
    unfold alertsBody at hbody
    rw [if_neg (by rw [hbody]; simp)]

theorem computeAlerts_never_empty_witness :
    zeroTx ≠ [] ∧ alertsBody parseYM zeroTx = [] ∧
      computeAlerts parseYM zeroTx = [allClearMsg] := by
  have h1 : zeroTx ≠ [] := by simp [zeroTx]
  have h2 : alertsBody parseYM zeroTx = [] := by with_unfolding_all rfl
  exact ⟨h1, h2, (computeAlerts_never_empty parseYM zeroTx).2.2 h1 h2⟩

end Finwise
